import Mathlib

/-!
Verification of the node-keyed log store implemented in `src/serve.py`
(openshift-splat-team/journal-gather-server).

The server state is modelled as an association list from file name to a
file record (byte content plus last-modified time); bytes are `Nat`s.
The three HTTP handlers (`do_POST`, `do_GET`, `do_DELETE`) and the
retention sweep (`delete_stale_logs`) are translated directly from the
Python source.  I/O failures (disk errors) are environment events outside
the state and are not modelled; the success paths of the handlers are.
-/

/-- A stored log file: its byte content and its last-modified time
(seconds since the epoch), as used by `os.path.getmtime`. -/
structure FileRec where
  content : List Nat
  mtime : Nat
deriving DecidableEq

/-- The log directory `/logs`: file names mapped to file records. -/
abbrev Store := List (String × FileRec)

/-- Python `s.replace(a, b)` for a one-character pattern and one-character
replacement is exactly per-character substitution. -/
def replaceChar (s : String) (a b : Char) : String :=
  String.mk (s.data.map fun c => if c = a then b else c)

/-- `serve.py` line 107 / 176 / 230:
`node_ip.replace(':', '_').replace('.', '_')`. -/
def clean_node_ip (s : String) : String :=
  replaceChar (replaceChar s ':' '_') '.' '_'

/-- The file name used for a (truthy) node id: `f"{clean_node_ip}.txt"`. -/
def logFilename (s : String) : String := clean_node_ip s ++ ".txt"

/-- `do_POST` lines 104-111: a present, non-empty `node-id` header is
cleaned; a missing header, or an empty one (falsy in Python), falls back
to `unknown_node.txt`. -/
def postFilename : Option String → String
  | some s => if s = "" then "unknown_node.txt" else logFilename s
  | none => "unknown_node.txt"

/-- A UTF-8 continuation byte, `0x80..0xBF`. -/
def isCont (b : Nat) : Bool := decide (128 ≤ b) && decide (b ≤ 191)

/-- Acceptor for strict UTF-8 (what Python's `bytes.decode('utf-8')`
accepts): `need` is the number of continuation bytes still expected, and
the next continuation byte must lie in `[lo, hi]` (the first continuation
byte of a multi-byte sequence has a restricted range, ruling out overlong
forms, surrogates and code points above U+10FFFF). -/
def utf8Run : Nat → Nat → Nat → List Nat → Bool
  | 0, _, _, [] => true
  | 0, _, _, b :: rest =>
    if b ≤ 127 then utf8Run 0 0 0 rest
    else if 194 ≤ b ∧ b ≤ 223 then utf8Run 1 128 191 rest
    else if b = 224 then utf8Run 2 160 191 rest
    else if 225 ≤ b ∧ b ≤ 236 then utf8Run 2 128 191 rest
    else if b = 237 then utf8Run 2 128 159 rest
    else if 238 ≤ b ∧ b ≤ 239 then utf8Run 2 128 191 rest
    else if b = 240 then utf8Run 3 144 191 rest
    else if 241 ≤ b ∧ b ≤ 243 then utf8Run 3 128 191 rest
    else if b = 244 then utf8Run 3 128 143 rest
    else false
  | _ + 1, _, _, [] => false
  | n + 1, lo, hi, b :: rest =>
    if lo ≤ b ∧ b ≤ hi then utf8Run n 128 191 rest else false

/-- `post_body_bytes.decode('utf-8')` succeeds exactly on valid UTF-8. -/
def validUtf8 (l : List Nat) : Bool := utf8Run 0 0 0 l

/-- UTF-8 bytes of an ASCII string. -/
def asciiBytes (s : String) : List Nat := s.data.map Char.toNat

/-- ASCII decimal digits of `n`, the rendering Python's `str(n)`
produces inside the f-string; accumulator-based, with a fuel argument to
keep the recursion structural (`n` itself is always enough fuel). -/
def natDecimalAux : Nat → Nat → List Nat → List Nat
  | 0, _, acc => acc
  | fuel + 1, n, acc =>
    if n = 0 then acc else natDecimalAux fuel (n / 10) ((48 + n % 10) :: acc)

/-- ASCII decimal rendering of a natural number. -/
def natDecimal (n : Nat) : List Nat :=
  if n = 0 then [48] else natDecimalAux n n []

/-- `do_POST` line 132: the bytes of
`f"[Undecodable binary data, {len(post_body_bytes)} bytes]"`. -/
def placeholderBytes (n : Nat) : List Nat :=
  asciiBytes "[Undecodable binary data, " ++ natDecimal n ++ asciiBytes " bytes]"

/-- `do_POST` lines 120-133: the string written to the file — the decoded
body when it is valid UTF-8, the placeholder otherwise (re-encoding is
the identity on the bytes of valid UTF-8). -/
def decodedBytes (p : List Nat) : List Nat :=
  if validUtf8 p then p else placeholderBytes p.length

/-- `do_POST` lines 141-143 issue two separate write calls on the file
opened in append mode: the decoded body, then a single `"\n"`. -/
def appendWrites (p : List Nat) : List (List Nat) := [decodedBytes p, [10]]

/-- The total data one `do_POST` call appends to the file. -/
def appendedData (p : List Nat) : List Nat := decodedBytes p ++ [10]

/-- Look up a file by name in the log directory. -/
def storeLookup : Store → String → Option FileRec
  | [], _ => none
  | (k, r) :: rest, fn => if k = fn then some r else storeLookup rest fn

/-- `open(file_path, 'a')` + write: create the file if absent, otherwise
extend its content; the modification time becomes the current time. -/
def storeAppend : Store → String → List Nat → Nat → Store
  | [], fn, d, now => [(fn, ⟨d, now⟩)]
  | (k, r) :: rest, fn, d, now =>
    if k = fn then (k, ⟨r.content ++ d, now⟩) :: rest
    else (k, r) :: storeAppend rest fn d now

/-- `os.remove`: drop the named file. -/
def storeErase : Store → String → Store
  | [], _ => []
  | (k, r) :: rest, fn => if k = fn then rest else (k, r) :: storeErase rest fn

/-- `delete_stale_logs` lines 49-77: walk the files; a file whose
modification time is strictly below the cutoff is deleted (or, in dry-run
mode, kept but counted); returns the resulting directory together with
the `deleted_count` and `skipped_count` the function logs. -/
def sweepStore : Store → Nat → Bool → Store × Nat × Nat
  | [], _, _ => ([], 0, 0)
  | (k, r) :: rest, cutoff, dryRun =>
    let p := sweepStore rest cutoff dryRun
    if r.mtime < cutoff then
      (if dryRun then (k, r) :: p.1 else p.1, p.2.1 + 1, p.2.2)
    else ((k, r) :: p.1, p.2.1, p.2.2 + 1)

/-- `delete_stale_logs(days_old, dry_run, directory_path)` lines 20-88:
the cutoff is `time.time() - days_old * 24 * 60 * 60` (line 38). -/
def delete_stale_logs (st : Store) (days_old : Nat) (now : Nat) (dry_run : Bool) :
    Store × Nat × Nat :=
  sweepStore st (now - days_old * 24 * 60 * 60) dry_run

/-- `do_POST` lines 96-160 (success path): pick the file name from the
header, decode the body, append it plus a newline, answer 200. -/
def do_POST (st : Store) (nodeId : Option String) (body : List Nat) (now : Nat) :
    Store × Nat :=
  (storeAppend st (postFilename nodeId) (appendedData body) now, 200)

/-- Python's universal-newline translation applied by
`open(file_path, 'r', encoding='utf-8')` on read: `"\r\n"` and a lone
`"\r"` both become `"\n"`. -/
def univNewlines : List Nat → List Nat
  | [] => []
  | 13 :: 10 :: rest => 10 :: univNewlines rest
  | 13 :: rest => 10 :: univNewlines rest
  | b :: rest => b :: univNewlines rest

/-- `do_GET` lines 162-199: a missing or empty `node-id` header is a 400;
an absent file is a 404; otherwise the file is read back (text mode, so
with universal-newline translation) and served with 200.  The handler
never modifies the directory, so the state component is returned as is. -/
def do_GET (st : Store) (nodeId : Option String) : Store × Nat × Option (List Nat) :=
  match nodeId with
  | none => (st, 400, none)
  | some s =>
    if s = "" then (st, 400, none)
    else
      match storeLookup st (logFilename s) with
      | none => (st, 404, none)
      | some r => (st, 200, some (univNewlines r.content))

/-- `do_DELETE` lines 214-263: line 215 first runs
`delete_stale_logs(days_old=1, dry_run=False)` unconditionally, before
the `node-id` header is even read; then a missing/empty header is a 400,
an absent file a 404, and otherwise the file is removed.  (On the success
path line 249 trips over a bad attribute after the 200 status line and
headers have already been flushed, so the extra 500 response lands in the
body and the observed status is still 200.) -/
def do_DELETE (st : Store) (nodeId : Option String) (now : Nat) : Store × Nat :=
  let st1 := (delete_stale_logs st 1 now false).1
  match nodeId with
  | none => (st1, 400)
  | some s =>
    if s = "" then (st1, 400)
    else
      match storeLookup st1 (logFilename s) with
      | none => (st1, 404)
      | some _ => (storeErase st1 (logFilename s), 200)

/-- Merges of two step sequences, with a fuel argument keeping the
recursion structural; the total length of the inputs is always enough
fuel, so the fuel-exhausted branch is unreachable in `interleavings`. -/
def interAux {α : Type} : Nat → List α → List α → List (List α)
  | _, [], ys => [ys]
  | _, x :: xs, [] => [x :: xs]
  | 0, xs, ys => [xs ++ ys]
  | fuel + 1, x :: xs, y :: ys =>
    (interAux fuel xs (y :: ys)).map (fun t => x :: t) ++
    (interAux fuel (x :: xs) ys).map (fun t => y :: t)

/-- All ways of merging two sequences of atomic write steps issued by two
concurrent handler threads, preserving each thread's program order. -/
def interleavings {α : Type} (xs ys : List α) : List (List α) :=
  interAux (xs.length + ys.length) xs ys

/-- The file-name column of the directory has no duplicates — the
filesystem invariant that there is one file per name. -/
abbrev keysNodup (st : Store) : Prop := (st.map Prod.fst).Nodup

/-! ### Helper lemmas -/

theorem univNewlines_cons_ne (b : Nat) (rest : List Nat) (hb : b ≠ 13) :
    univNewlines (b :: rest) = b :: univNewlines rest := by
  rw [univNewlines.eq_def]
  cases rest with
  | nil => simp [hb]
  | cons c rest2 => simp [hb]

theorem univNewlines_id (l : List Nat) (h : (13 : Nat) ∉ l) : univNewlines l = l := by
  induction l with
  | nil => rfl
  | cons b rest ih =>
    have hb : b ≠ 13 := fun e => h (by simp [e])
    rw [univNewlines_cons_ne b rest hb, ih (fun m => h (List.mem_cons_of_mem _ m))]

theorem sweepStore_dry (st : Store) (c : Nat) : (sweepStore st c true).1 = st := by
  induction st with
  | nil => rfl
  | cons e rest ih =>
    obtain ⟨k, r⟩ := e
    by_cases hm : r.mtime < c <;> simp [sweepStore, hm, ih]

theorem sweepStore_false (st : Store) (c : Nat) :
    (sweepStore st c false).1 = st.filter (fun e => ! decide (e.2.mtime < c)) := by
  induction st with
  | nil => rfl
  | cons e rest ih =>
    obtain ⟨k, r⟩ := e
    by_cases hm : r.mtime < c <;> simp [sweepStore, List.filter, hm, ih]

theorem sweepStore_deleted (st : Store) (c : Nat) (d : Bool) :
    (sweepStore st c d).2.1 = (st.filter (fun e => decide (e.2.mtime < c))).length := by
  induction st with
  | nil => rfl
  | cons e rest ih =>
    obtain ⟨k, r⟩ := e
    by_cases hm : r.mtime < c <;> simp [sweepStore, List.filter, hm, ih]

theorem storeLookup_eq_none (st : Store) (fn : String) (h : fn ∉ st.map Prod.fst) :
    storeLookup st fn = none := by
  induction st with
  | nil => rfl
  | cons e rest ih =>
    obtain ⟨k, r⟩ := e
    have hk : k ≠ fn := fun e => h (by simp [e])
    simp only [storeLookup, if_neg hk]
    exact ih (fun m => h (by simp; right; exact (by simpa using m)))

theorem storeLookup_sweep_none (st : Store) (c : Nat) (fn : String)
    (h : storeLookup st fn = none) :
    storeLookup (sweepStore st c false).1 fn = none := by
  induction st with
  | nil => rfl
  | cons e rest ih =>
    obtain ⟨k, r⟩ := e
    by_cases hk : k = fn
    · simp [storeLookup, hk] at h
    · simp only [storeLookup, if_neg hk] at h
      by_cases hm : r.mtime < c <;> simp [sweepStore, hm, storeLookup, if_neg hk, ih h]

theorem storeLookup_sweep_fresh (st : Store) (c : Nat) (fn : String) (r : FileRec)
    (h : storeLookup st fn = some r) (hf : ¬ r.mtime < c) :
    storeLookup (sweepStore st c false).1 fn = some r := by
  induction st with
  | nil => simp [storeLookup] at h
  | cons e rest ih =>
    obtain ⟨k, r'⟩ := e
    by_cases hk : k = fn
    · simp only [storeLookup, if_pos hk, Option.some.injEq] at h
      subst h
      simp [sweepStore, hf, storeLookup, if_pos hk]
    · simp only [storeLookup, if_neg hk] at h
      by_cases hm : r'.mtime < c <;>
        simp [sweepStore, hm, storeLookup, if_neg hk, ih h]

theorem storeLookup_erase_ne (st : Store) (k fn : String) (hne : k ≠ fn) :
    storeLookup (storeErase st k) fn = storeLookup st fn := by
  induction st with
  | nil => rfl
  | cons e rest ih =>
    obtain ⟨k', r⟩ := e
    by_cases hk : k' = k
    · subst hk
      simp [storeErase, storeLookup, if_neg hne]
    · by_cases hfn : k' = fn
      · subst hfn
        simp [storeErase, if_neg hk, storeLookup]
      · simp [storeErase, if_neg hk, storeLookup, if_neg hfn, ih]

theorem storeLookup_erase_self (st : Store) (fn : String) (h : keysNodup st) :
    storeLookup (storeErase st fn) fn = none := by
  induction st with
  | nil => rfl
  | cons e rest ih =>
    obtain ⟨k, r⟩ := e
    simp only [keysNodup, List.map_cons, List.nodup_cons] at h
    by_cases hk : k = fn
    · subst hk
      simp only [storeErase, if_pos rfl]
      exact storeLookup_eq_none rest k h.1
    · simp [storeErase, hk, storeLookup, ih h.2]

theorem sweep_keysNodup (st : Store) (c : Nat) (h : keysNodup st) :
    keysNodup (sweepStore st c false).1 := by
  rw [keysNodup, sweepStore_false st c]
  exact List.Nodup.sublist (List.Sublist.map Prod.fst (List.filter_sublist st)) h

theorem natDecimalAux_mem (fuel n : Nat) (acc : List Nat) (b : Nat)
    (h : b ∈ natDecimalAux fuel n acc) : 48 ≤ b ∨ b ∈ acc := by
  induction fuel generalizing n acc with
  | zero => right; exact h
  | succ f ih =>
    simp only [natDecimalAux] at h
    by_cases hn : n = 0
    · rw [if_pos hn] at h
      right; exact h
    · rw [if_neg hn] at h
      rcases ih _ _ h with h48 | hmem
      · left; exact h48
      · rcases List.mem_cons.1 hmem with rfl | hmem2
        · left; omega
        · right; exact hmem2

theorem thirteen_not_mem_natDecimal (n : Nat) : (13 : Nat) ∉ natDecimal n := by
  intro h
  rw [natDecimal] at h
  by_cases hn : n = 0
  · rw [if_pos hn] at h
    simp at h
  · rw [if_neg hn] at h
    rcases natDecimalAux_mem _ _ _ _ h with h48 | hmem
    · omega
    · simp at hmem

theorem thirteen_not_mem_placeholder (n : Nat) : (13 : Nat) ∉ placeholderBytes n := by
  intro h
  rw [placeholderBytes] at h
  rcases List.mem_append.1 h with h1 | h2
  · rcases List.mem_append.1 h1 with h3 | h4
    · exact absurd h3 (by decide)
    · exact thirteen_not_mem_natDecimal n h4
  · exact absurd h2 (by decide)

theorem interAux_perm {α : Type} (fuel : Nat) (xs ys s : List α)
    (hf : xs.length + ys.length ≤ fuel) (h : s ∈ interAux fuel xs ys) :
    s.Perm (xs ++ ys) := by
  induction fuel generalizing xs ys s with
  | zero =>
    cases xs with
    | nil =>
      simp only [interAux, List.mem_singleton] at h
      subst h
      exact List.Perm.refl _
    | cons x xs' =>
      simp only [List.length_cons] at hf
      omega
  | succ f ih =>
    cases xs with
    | nil =>
      simp only [interAux, List.mem_singleton] at h
      subst h
      exact List.Perm.refl _
    | cons x xs' =>
      cases ys with
      | nil =>
        simp only [interAux, List.mem_singleton] at h
        subst h
        simp
      | cons y ys' =>
        simp only [interAux, List.mem_append, List.mem_map] at h
        rcases h with ⟨t, ht, rfl⟩ | ⟨t, ht, rfl⟩
        · have hl : xs'.length + (y :: ys').length ≤ f := by
            simp only [List.length_cons] at hf ⊢
            omega
          exact List.Perm.cons x (ih xs' (y :: ys') t hl ht)
        · have hl : (x :: xs').length + ys'.length ≤ f := by
            simp only [List.length_cons] at hf ⊢
            omega
          have hp := ih (x :: xs') ys' t hl ht
          exact (List.Perm.cons y hp).trans List.perm_middle.symm

theorem interleavings_perm {α : Type} (xs ys s : List α)
    (h : s ∈ interleavings xs ys) : s.Perm (xs ++ ys) :=
  interAux_perm (xs.length + ys.length) xs ys s (Nat.le_refl _) h

theorem mem_join_parts {α : Type} (l : List (List α)) (a : List α) (h : a ∈ l) :
    ∃ u v, l.flatten = u ++ a ++ v := by
  induction l with
  | nil => simp at h
  | cons b tl ih =>
    rcases List.mem_cons.1 h with rfl | h2
    · exact ⟨[], tl.flatten, by simp⟩
    · rcases ih h2 with ⟨u, v, huv⟩
      exact ⟨b ++ u, v, by simp [huv]⟩

/-! ### Claims -/

/-- Claim C9: for every stored log whose last-modified time is older than
`maxAge`, `sweep(maxAge, dryRun=false)` deletes it and counts it in the
deleted count, while `sweep(maxAge, dryRun=true)` leaves every log in
place and counts the stale log as a would-delete; logs not older than
`maxAge` are never deleted by either mode.  Stated as: the dry run
returns the store unchanged, the real run returns exactly the non-stale
entries, and both report as deleted exactly the number of stale
entries. -/
theorem c9_sweep_retention (st : Store) (maxAge now : Nat) :
    (delete_stale_logs st maxAge now true).1 = st ∧
    (delete_stale_logs st maxAge now false).1 =
      st.filter (fun e => ! decide (e.2.mtime < now - maxAge * 24 * 60 * 60)) ∧
    (delete_stale_logs st maxAge now true).2.1 =
      (st.filter (fun e => decide (e.2.mtime < now - maxAge * 24 * 60 * 60))).length ∧
    (delete_stale_logs st maxAge now false).2.1 =
      (st.filter (fun e => decide (e.2.mtime < now - maxAge * 24 * 60 * 60))).length :=
  ⟨sweepStore_dry st _, sweepStore_false st _,
    sweepStore_deleted st _ true, sweepStore_deleted st _ false⟩

/-- Claim C10: every DELETE request runs the full retention sweep
(one-day threshold, not a dry run) before the `node-id` header is
examined; a DELETE with no `node-id` header is answered 400, but its
resulting state is the swept store — exactly the entries not older than
one day — not the original state. -/
theorem c10_delete_always_sweeps (st : Store) (now : Nat) :
    do_DELETE st none now = ((delete_stale_logs st 1 now false).1, 400) ∧
    (do_DELETE st none now).1 =
      st.filter (fun e => ! decide (e.2.mtime < now - 1 * 24 * 60 * 60)) := by
  constructor
  · rfl
  · simp only [do_DELETE, delete_stale_logs]
    exact sweepStore_false st _

/-- Claim C1 (amended): appending `p1` then `p2` under key `k` and
reading `k` returns `p1 ++ "\n" ++ p2 ++ "\n"` — the payloads in arrival
order, but each followed by the newline separator the handler writes
after every batch (shown here for UTF-8 payloads without carriage
returns, which survive the text-mode round trip byte for byte). -/
theorem c1_two_appends_read (k : String) (p1 p2 : List Nat) (t1 t2 : Nat)
    (hk : k ≠ "") (h1 : validUtf8 p1 = true) (h2 : validUtf8 p2 = true)
    (hc1 : (13 : Nat) ∉ p1) (hc2 : (13 : Nat) ∉ p2) :
    (do_GET (do_POST (do_POST [] (some k) p1 t1).1 (some k) p2 t2).1 (some k)).2 =
      (200, some (p1 ++ [10] ++ p2 ++ [10])) := by
  have hfn : postFilename (some k) = logFilename k := by simp [postFilename, hk]
  have key : (do_POST (do_POST [] (some k) p1 t1).1 (some k) p2 t2).1 =
      [(logFilename k, ⟨(p1 ++ [10]) ++ (p2 ++ [10]), t2⟩)] := by
    simp [do_POST, hfn, storeAppend, appendedData, decodedBytes, h1, h2]
  rw [key]
  simp [do_GET, hk, storeLookup, univNewlines_id, hc1, hc2]

/-- Witness for C1 at `k = "n1"`, `p1 = "h"`, `p2 = "i"`. -/
theorem c1_witness :
    ("n1" : String) ≠ "" ∧ validUtf8 [104] = true ∧ validUtf8 [105] = true ∧
    (13 : Nat) ∉ ([104] : List Nat) ∧ (13 : Nat) ∉ ([105] : List Nat) ∧
    (do_GET (do_POST (do_POST [] (some "n1") [104] 0).1 (some "n1") [105] 1).1
        (some "n1")).2 = (200, some ([104] ++ [10] ++ [105] ++ [10])) :=
  ⟨by decide, by decide, by decide, by decide, by decide,
    c1_two_appends_read "n1" [104] [105] 0 1 (by decide) (by decide) (by decide)
      (by decide) (by decide)⟩

/-- Counterexample to C1 as stated: after appending `"h"` then `"i"`,
the read returns `"h\ni\n"`, not the bare concatenation `"hi"`. -/
theorem c1_counterexample :
    (do_GET (do_POST (do_POST [] (some "n1") [104] 0).1 (some "n1") [105] 1).1
        (some "n1")).2.2 ≠ some ([104] ++ [105]) ∧
    (do_GET (do_POST (do_POST [] (some "n1") [104] 0).1 (some "n1") [105] 1).1
        (some "n1")).2.2 = some [104, 10, 105, 10] :=
  ⟨by decide, by decide⟩

/-- Claim C2 (amended): a payload that is valid UTF-8 (and free of
carriage returns, which text mode rewrites) reads back as its exact
bytes followed by one newline; a payload that is not valid UTF-8 does
not round-trip at all — it is replaced by the placeholder text
`[Undecodable binary data, N bytes]`. -/
theorem c2_roundtrip (k : String) (p : List Nat) (t : Nat) (hk : k ≠ "") :
    (validUtf8 p = true → (13 : Nat) ∉ p →
      (do_GET (do_POST [] (some k) p t).1 (some k)).2 = (200, some (p ++ [10]))) ∧
    (validUtf8 p = false →
      (do_GET (do_POST [] (some k) p t).1 (some k)).2 =
        (200, some (placeholderBytes p.length ++ [10]))) := by
  have hfn : postFilename (some k) = logFilename k := by simp [postFilename, hk]
  constructor
  · intro hv hc
    have key : (do_POST [] (some k) p t).1 = [(logFilename k, ⟨p ++ [10], t⟩)] := by
      simp [do_POST, hfn, storeAppend, appendedData, decodedBytes, hv]
    rw [key]
    simp [do_GET, hk, storeLookup, univNewlines_id, hc]
  · intro hv
    have hno : (13 : Nat) ∉ placeholderBytes p.length ++ [10] := by
      simp only [List.mem_append, List.mem_singleton]
      push_neg
      exact ⟨thirteen_not_mem_placeholder p.length, by decide⟩
    have key : (do_POST [] (some k) p t).1 =
        [(logFilename k, ⟨placeholderBytes p.length ++ [10], t⟩)] := by
      simp [do_POST, hfn, storeAppend, appendedData, decodedBytes, hv]
    rw [key]
    simp [do_GET, hk, storeLookup, univNewlines_id _ hno]

/-- Witness for C2 at `k = "n1"`, `p = "h"`. -/
theorem c2_witness :
    ("n1" : String) ≠ "" ∧
    (do_GET (do_POST [] (some "n1") [104] 0).1 (some "n1")).2 =
      (200, some ([104] ++ [10])) :=
  ⟨by decide, (c2_roundtrip "n1" [104] 0 (by decide)).1 (by decide) (by decide)⟩

/-- Counterexample to C2 as stated: the single byte `0xFF` is not valid
UTF-8; appending it and reading back yields the placeholder text, not
the original byte. -/
theorem c2_counterexample :
    (do_GET (do_POST [] (some "n1") [255] 0).1 (some "n1")).2.2 ≠ some [255] ∧
    (do_GET (do_POST [] (some "n1") [255] 0).1 (some "n1")).2.2 =
      some (asciiBytes "[Undecodable binary data, 1 bytes]" ++ [10]) :=
  ⟨by decide, by decide⟩

/-- Claim C3 (amended): modelling each of the two write calls a `do_POST`
issues (the decoded payload, then the newline) as one atomic append, any
interleaving of two concurrent appends to the same key leaves each
call's decoded payload contiguous in the final log, and the final log is
a merge of the four write units — decoded payloads *and* newline
separators — not a concatenation of the payloads alone.  The handler
takes no lock, so nothing finer than write-call granularity is
established. -/
theorem c3_concurrent_appends (p1 p2 : List Nat) (s : List (List Nat))
    (h : s ∈ interleavings (appendWrites p1) (appendWrites p2)) :
    (∃ u v, s.flatten = u ++ decodedBytes p1 ++ v) ∧
    (∃ u v, s.flatten = u ++ decodedBytes p2 ++ v) ∧
    s.Perm (appendWrites p1 ++ appendWrites p2) := by
  have hperm := interleavings_perm _ _ _ h
  refine ⟨?_, ?_, hperm⟩
  · have hm : decodedBytes p1 ∈ s := by
      have hin : decodedBytes p1 ∈ appendWrites p1 ++ appendWrites p2 := by
        simp [appendWrites]
      exact hperm.mem_iff.2 hin
    exact mem_join_parts s _ hm
  · have hm : decodedBytes p2 ∈ s := by
      have hin : decodedBytes p2 ∈ appendWrites p1 ++ appendWrites p2 := by
        simp [appendWrites]
      exact hperm.mem_iff.2 hin
    exact mem_join_parts s _ hm

/-- Witness for C3 at the sequential schedule of `append "a"` and
`append "b"`. -/
theorem c3_witness :
    (([[97], [10], [98], [10]] : List (List Nat)) ∈
      interleavings (appendWrites [97]) (appendWrites [98])) ∧
    ((∃ u v, ([[97], [10], [98], [10]] : List (List Nat)).flatten =
        u ++ decodedBytes [97] ++ v) ∧
     (∃ u v, ([[97], [10], [98], [10]] : List (List Nat)).flatten =
        u ++ decodedBytes [98] ++ v) ∧
     ([[97], [10], [98], [10]] : List (List Nat)).Perm
        (appendWrites [97] ++ appendWrites [98])) :=
  ⟨by decide, c3_concurrent_appends [97] [98] [[97], [10], [98], [10]] (by decide)⟩

/-- Counterexample to C3 as stated: even the fully sequential schedule of
`append "a"` and `append "b"` produces the log `"a\nb\n"`, which is not a
concatenation of the two payloads in either order. -/
theorem c3_counterexample :
    ((appendWrites [97] ++ appendWrites [98]) ∈
      interleavings (appendWrites [97]) (appendWrites [98])) ∧
    (appendWrites [97] ++ appendWrites [98]).flatten ≠ [97] ++ [98] ∧
    (appendWrites [97] ++ appendWrites [98]).flatten ≠ [98] ++ [97] :=
  ⟨by decide, by decide, by decide⟩

/-- Claim C4 (amended): a successful read does *not* remove the log —
`do_GET` never modifies the store, so reading a key twice with no
intervening append succeeds twice with the same content; removal happens
only via DELETE or the retention sweep. -/
theorem c4_read_keeps_log (st : Store) (s : String) (r : FileRec)
    (hs : s ≠ "") (h : storeLookup st (logFilename s) = some r) :
    do_GET st (some s) = (st, 200, some (univNewlines r.content)) ∧
    do_GET (do_GET st (some s)).1 (some s) = (st, 200, some (univNewlines r.content)) := by
  have h1 : do_GET st (some s) = (st, 200, some (univNewlines r.content)) := by
    simp [do_GET, hs, h]
  exact ⟨h1, by simp [h1]⟩

/-- Witness for C4 on a one-file store. -/
theorem c4_witness :
    ("10.0.0.1" : String) ≠ "" ∧
    storeLookup [("10_0_0_1.txt", FileRec.mk [104] 5)] (logFilename "10.0.0.1") =
      some (FileRec.mk [104] 5) ∧
    do_GET [("10_0_0_1.txt", FileRec.mk [104] 5)] (some "10.0.0.1") =
      ([("10_0_0_1.txt", FileRec.mk [104] 5)], 200,
        some (univNewlines (FileRec.mk [104] 5).content)) :=
  ⟨by decide, by decide,
    (c4_read_keeps_log [("10_0_0_1.txt", FileRec.mk [104] 5)] "10.0.0.1"
      (FileRec.mk [104] 5) (by decide) (by decide)).1⟩

/-- Counterexample to C4 as stated: after a successful read (status 200),
a second read of the same key with no intervening append again returns
200 with the content — not NotFound. -/
theorem c4_counterexample :
    (do_GET [("10_0_0_1.txt", FileRec.mk [104] 5)] (some "10.0.0.1")).2.1 = 200 ∧
    (do_GET (do_GET [("10_0_0_1.txt", FileRec.mk [104] 5)] (some "10.0.0.1")).1
        (some "10.0.0.1")).2 = (200, some [104]) :=
  ⟨by decide, by decide⟩

/-- Claim C5 (amended): `do_DELETE` for key `k` first runs the retention
sweep (one-day threshold, for real) over every stored log and only then
removes `k`'s log; the logs of other keys survive the call exactly when
they are not stale.  Here: any entry under a different file name whose
modification time is not older than one day is untouched. -/
theorem c5_delete_frame (st : Store) (s : String) (now : Nat) (fn : String) (r : FileRec)
    (hs : s ≠ "") (hfn : fn ≠ logFilename s)
    (h : storeLookup st fn = some r)
    (hfresh : ¬ r.mtime < now - 1 * 24 * 60 * 60) :
    storeLookup (do_DELETE st (some s) now).1 fn = some r := by
  simp only [do_DELETE, delete_stale_logs]
  have h1 : storeLookup (sweepStore st (now - 1 * 24 * 60 * 60) false).1 fn = some r :=
    storeLookup_sweep_fresh st _ fn r h hfresh
  cases hlk : storeLookup (sweepStore st (now - 1 * 24 * 60 * 60) false).1 (logFilename s) with
  | none => simp [hs, hlk, h1]
  | some r2 =>
    simp [hs, hlk, storeLookup_erase_ne _ _ _ (Ne.symm hfn), h1]

/-- Witness for C5: deleting `"a"` leaves the fresh log of `"b"` alone. -/
theorem c5_witness :
    ("a" : String) ≠ "" ∧ ("b.txt" : String) ≠ logFilename "a" ∧
    storeLookup [("a.txt", FileRec.mk [97] 100000), ("b.txt", FileRec.mk [98] 99999)]
      "b.txt" = some (FileRec.mk [98] 99999) ∧
    ¬ (FileRec.mk [98] 99999).mtime < 100000 - 1 * 24 * 60 * 60 ∧
    storeLookup (do_DELETE [("a.txt", FileRec.mk [97] 100000),
        ("b.txt", FileRec.mk [98] 99999)] (some "a") 100000).1 "b.txt" =
      some (FileRec.mk [98] 99999) :=
  ⟨by decide, by decide, by decide, by decide,
    c5_delete_frame [("a.txt", FileRec.mk [97] 100000), ("b.txt", FileRec.mk [98] 99999)]
      "a" 100000 "b.txt" (FileRec.mk [98] 99999) (by decide) (by decide) (by decide)
      (by decide)⟩

/-- Counterexample to C5 as stated: deleting key `"a"` also removes the
stale log of key `"b"`, because the handler triggers the retention sweep
first — delete does not leave every other key unchanged. -/
theorem c5_counterexample :
    do_DELETE [("a.txt", FileRec.mk [97] 100000), ("b.txt", FileRec.mk [98] 0)]
        (some "a") 100000 = ([], 200) ∧
    storeLookup (do_DELETE [("a.txt", FileRec.mk [97] 100000),
        ("b.txt", FileRec.mk [98] 0)] (some "a") 100000).1 "b.txt" = none :=
  ⟨by decide, by decide⟩

/-- Claim C6 (amended): sanitization is the deterministic function that
replaces colons and dots by underscores — `"10.0.0.1:443"` always maps
to `"10_0_0_1_443"` — but path separators and null bytes are *not*
replaced, and the empty raw key is not rejected with `InvalidKey`: POST
routes it to the fallback storage key `unknown_node.txt` (and succeeds),
while GET and DELETE answer 400. -/
theorem c6_sanitization (st : Store) (now : Nat) :
    clean_node_ip "10.0.0.1:443" = "10_0_0_1_443" ∧
    clean_node_ip "a/b" = "a/b" ∧
    clean_node_ip "a\x00b" = "a\x00b" ∧
    postFilename (some "") = "unknown_node.txt" ∧
    postFilename none = "unknown_node.txt" ∧
    (do_POST [] (some "") [104] now).2 = 200 ∧
    (do_GET st (some "")).2.1 = 400 ∧
    (do_DELETE st (some "") now).2 = 400 := by
  refine ⟨by decide, by decide, by decide, by decide, by decide, rfl, ?_, ?_⟩
  · simp [do_GET]
  · simp [do_DELETE]

/-- Counterexample to C6 as stated: the path separator in `"a/b"`
survives sanitization unchanged, and the empty raw key does not fail —
POST stores it under `unknown_node.txt` with status 200. -/
theorem c6_counterexample :
    clean_node_ip "a/b" = "a/b" ∧
    postFilename (some "") = "unknown_node.txt" ∧
    (do_POST [] (some "") [104] 0).2 = 200 :=
  ⟨by decide, by decide, by decide⟩

/-- Claim C7 (amended): for a key `k` with no log, `read(k)` yields 404
and leaves the state untouched, and `delete(k)` yields 404 and creates no
log for `k` — but `delete` first runs the retention sweep, so its
resulting state is the swept store, which may lack other keys' stale
logs, rather than the unchanged original state. -/
theorem c7_absent_key (st : Store) (s : String) (now : Nat)
    (hs : s ≠ "") (h : storeLookup st (logFilename s) = none) :
    do_GET st (some s) = (st, 404, none) ∧
    (do_DELETE st (some s) now).2 = 404 ∧
    (do_DELETE st (some s) now).1 = (delete_stale_logs st 1 now false).1 ∧
    storeLookup (do_DELETE st (some s) now).1 (logFilename s) = none := by
  have hswept : storeLookup (sweepStore st (now - 1 * 24 * 60 * 60) false).1
      (logFilename s) = none := storeLookup_sweep_none st _ _ h
  refine ⟨by simp [do_GET, hs, h], ?_, ?_, ?_⟩ <;>
    simp [do_DELETE, delete_stale_logs, hs, hswept]

/-- Witness for C7 on a store holding only a fresh log for another key. -/
theorem c7_witness :
    ("a" : String) ≠ "" ∧
    storeLookup [("b.txt", FileRec.mk [98] 40)] (logFilename "a") = none ∧
    (do_GET [("b.txt", FileRec.mk [98] 40)] (some "a") =
      ([("b.txt", FileRec.mk [98] 40)], 404, none) ∧
    (do_DELETE [("b.txt", FileRec.mk [98] 40)] (some "a") 50).2 = 404 ∧
    (do_DELETE [("b.txt", FileRec.mk [98] 40)] (some "a") 50).1 =
      (delete_stale_logs [("b.txt", FileRec.mk [98] 40)] 1 50 false).1 ∧
    storeLookup (do_DELETE [("b.txt", FileRec.mk [98] 40)] (some "a") 50).1
      (logFilename "a") = none) :=
  ⟨by decide, by decide,
    c7_absent_key [("b.txt", FileRec.mk [98] 40)] "a" 50 (by decide) (by decide)⟩

/-- Counterexample to C7 as stated: with no log for `"a"` but a stale log
for `"b"`, `delete("a")` answers 404 yet empties the store — the absent-
key delete does change the stored state. -/
theorem c7_counterexample :
    storeLookup [("b.txt", FileRec.mk [98] 0)] (logFilename "a") = none ∧
    (do_DELETE [("b.txt", FileRec.mk [98] 0)] (some "a") 100000).2 = 404 ∧
    (do_DELETE [("b.txt", FileRec.mk [98] 0)] (some "a") 100000).1 = [] :=
  ⟨by decide, by decide, by decide⟩

/-- Claim C8 (amended): for a key whose log exists *and is not stale*
(its modification time is not older than one day — otherwise the sweep
the handler runs first removes it and even the first call answers 404),
deleting twice yields 200 (Ok) then 404 (NotFound); stated on stores
whose file names are distinct, the filesystem invariant. -/
theorem c8_delete_twice (st : Store) (s : String) (r : FileRec) (now : Nat)
    (hs : s ≠ "") (hnd : keysNodup st)
    (h : storeLookup st (logFilename s) = some r)
    (hfresh : ¬ r.mtime < now - 1 * 24 * 60 * 60) :
    (do_DELETE st (some s) now).2 = 200 ∧
    (do_DELETE (do_DELETE st (some s) now).1 (some s) now).2 = 404 := by
  have h1 : storeLookup (sweepStore st (now - 1 * 24 * 60 * 60) false).1
      (logFilename s) = some r := storeLookup_sweep_fresh st _ _ r h hfresh
  have hnd1 : keysNodup (sweepStore st (now - 1 * 24 * 60 * 60) false).1 :=
    sweep_keysNodup st _ hnd
  have hstate : (do_DELETE st (some s) now).1 =
      storeErase (sweepStore st (now - 1 * 24 * 60 * 60) false).1 (logFilename s) := by
    simp [do_DELETE, delete_stale_logs, hs, h1]
  have hstatus : (do_DELETE st (some s) now).2 = 200 := by
    simp [do_DELETE, delete_stale_logs, hs, h1]
  refine ⟨hstatus, ?_⟩
  rw [hstate]
  have h2 : storeLookup (storeErase (sweepStore st (now - 1 * 24 * 60 * 60) false).1
      (logFilename s)) (logFilename s) = none :=
    storeLookup_erase_self _ _ hnd1
  have h3 : storeLookup (sweepStore (storeErase
      (sweepStore st (now - 1 * 24 * 60 * 60) false).1 (logFilename s))
      (now - 1 * 24 * 60 * 60) false).1 (logFilename s) = none :=
    storeLookup_sweep_none _ _ _ h2
  simp [do_DELETE, delete_stale_logs, hs, h3]

/-- Witness for C8 on a one-file store holding a fresh log. -/
theorem c8_witness :
    ("a" : String) ≠ "" ∧ keysNodup [("a.txt", FileRec.mk [97] 100000)] ∧
    storeLookup [("a.txt", FileRec.mk [97] 100000)] (logFilename "a") =
      some (FileRec.mk [97] 100000) ∧
    ¬ (FileRec.mk [97] 100000).mtime < 100000 - 1 * 24 * 60 * 60 ∧
    ((do_DELETE [("a.txt", FileRec.mk [97] 100000)] (some "a") 100000).2 = 200 ∧
     (do_DELETE (do_DELETE [("a.txt", FileRec.mk [97] 100000)] (some "a") 100000).1
        (some "a") 100000).2 = 404) :=
  ⟨by decide, by decide, by decide, by decide,
    c8_delete_twice [("a.txt", FileRec.mk [97] 100000)] "a" (FileRec.mk [97] 100000)
      100000 (by decide) (by decide) (by decide) (by decide)⟩

/-- Counterexample to C8 as stated: key `"a"` has a log, but the log is
older than one day, so the sweep the first DELETE runs removes it before
the per-key check and the *first* call already answers 404, not Ok. -/
theorem c8_counterexample :
    storeLookup [("a.txt", FileRec.mk [97] 0)] (logFilename "a") =
      some (FileRec.mk [97] 0) ∧
    (do_DELETE [("a.txt", FileRec.mk [97] 0)] (some "a") 100000).2 = 404 :=
  ⟨by decide, by decide⟩
